import Mathlib

/-!
Verification of the AyurVaidya case-lifecycle, field-editability and
content-safety core, shallowly embedded from the JavaScript sources
(`src/utils/safety.js`, `src/services/caseService.js`,
`src/models/CaseFile.js`).

Strings are modelled by Lean `String` (a list of characters); the JS
guard `if (!text || typeof text !== 'string')` is modelled by taking the
text argument as `Option String` (`none` models `null` / `undefined` /
non-string values) together with an emptiness test.
-/

namespace AyurVaidya

/-! ### JavaScript string primitives -/

/-- Models `haystack.includes(needle)` on JS strings (substring test),
at the level of character lists. -/
def includesSub (haystack needle : List Char) : Bool :=
  needle.isPrefixOf haystack ||
    match haystack with
    | [] => false
    | _ :: t => includesSub t needle

/-- Models `s.toLowerCase()` (all terms involved are ASCII). -/
def lowerStr (s : String) : String := ⟨s.data.map Char.toLower⟩

/-- Models `haystack.includes(needle)` on JS strings. -/
def strIncludes (haystack needle : String) : Bool :=
  includesSub haystack.data needle.data

/-! ### safety.js: prohibited-term tables -/

def PROHIBITED_DIAGNOSIS_TERMS : List String := [
  "you have",
  "diagnosed with",
  "diagnosis is",
  "diagnosis:",
  "confirmed",
  "definitely",
  "certainly",
  "you are suffering from",
  "patient has",
  "prescribe",
  "prescription",
  "take this medicine",
  "take this medication",
  "dosage:",
  "mg twice daily",
  "mg once daily",
  "tablets daily",
  "must take",
  "should take"
]

def PROHIBITED_MEDICAL_CLAIMS : List String := [
  "will cure",
  "guaranteed to",
  "proven to cure",
  "will heal",
  "miracle",
  "100% effective",
  "no side effects"
]

/-! ### safety.js: case status transition rules -/

/-- Models the `STATUS_TRANSITIONS` object: key lookup returns
`undefined` (here `none`) for unknown statuses. -/
def STATUS_TRANSITIONS (s : String) : Option (List String) :=
  if s = "DRAFT" then some ["PENDING_REVIEW"]
  else if s = "PENDING_REVIEW" then some ["REVIEWED", "DRAFT"]
  else if s = "REVIEWED" then some ["CLOSED", "PENDING_REVIEW"]
  else if s = "CLOSED" then some []
  else none

/-- Models `isValidStatusTransition(fromStatus, toStatus)`. -/
def isValidStatusTransition (fromStatus toStatus : String) : Bool :=
  match STATUS_TRANSITIONS fromStatus with
  | none => false
  | some allowed => allowed.contains toStatus

/-- Models `getAllowedTransitions(currentStatus)`. -/
def getAllowedTransitions (currentStatus : String) : List String :=
  (STATUS_TRANSITIONS currentStatus).getD []

/-! ### safety.js: field editability rules -/

def IMMUTABLE_FIELDS : List String := ["id", "patientId", "createdAt"]

def SYSTEM_MANAGED_FIELDS : List String :=
  ["updatedAt", "structuredSummary", "clinicalFlags", "recommendationId"]

def PRE_REVIEW_ONLY_FIELDS : List String :=
  ["chiefComplaint", "symptomDuration", "rawNotes", "vitalSigns", "attachments"]

def DOCTOR_ONLY_FIELDS : List String :=
  ["doctorNotes", "doctorDecision", "reviewedBy"]

/-- Result shape `\x7beditable, reason\x7d` of `isFieldEditable`. -/
structure Editability where
  editable : Bool
  reason : String
deriving DecidableEq, Repr

/-- Models `isFieldEditable(fieldName, caseStatus)`. -/
def isFieldEditable (fieldName caseStatus : String) : Editability :=
  if IMMUTABLE_FIELDS.contains fieldName then
    ⟨false, "Field is immutable after creation"⟩
  else if SYSTEM_MANAGED_FIELDS.contains fieldName then
    ⟨false, "Field is managed by the system"⟩
  else if PRE_REVIEW_ONLY_FIELDS.contains fieldName then
    if caseStatus = "DRAFT" then ⟨true, "Editable in draft status"⟩
    else ⟨false, "Field is locked after submission for review"⟩
  else if DOCTOR_ONLY_FIELDS.contains fieldName then
    if caseStatus = "DRAFT" then ⟨false, "Doctor fields not available in draft"⟩
    else if caseStatus = "CLOSED" then ⟨false, "Case is closed"⟩
    else ⟨true, "Doctor can edit this field"⟩
  else if fieldName = "priority" then
    if caseStatus = "CLOSED" then ⟨false, "Case is closed"⟩
    else ⟨true, "Priority can always be adjusted"⟩
  else ⟨false, "Unknown field"⟩

/-! ### safety.js: content safety validation -/

/-- Result shape `\x7bsafe, violations[]\x7d` of `validateContentSafety`. -/
structure SafetyVerdict where
  safe : Bool
  violations : List String
deriving DecidableEq, Repr

/-- Models `validateContentSafety(text)`; `none` models a missing or
non-string argument. -/
def validateContentSafety (text : Option String) : SafetyVerdict :=
  match text with
  | none => ⟨true, []⟩
  | some t =>
    if t = "" then ⟨true, []⟩
    else
      let lowerText := lowerStr t
      let violations :=
        ((PROHIBITED_DIAGNOSIS_TERMS.filter
            (fun term => strIncludes lowerText (lowerStr term))).map
          (fun term => "Contains prohibited term: \"" ++ term ++ "\"")) ++
        ((PROHIBITED_MEDICAL_CLAIMS.filter
            (fun claim => strIncludes lowerText (lowerStr claim))).map
          (fun claim => "Contains prohibited claim: \"" ++ claim ++ "\""))
      ⟨violations.isEmpty, violations⟩

/-! ### safety.js: input sanitization

`sanitizeInput` applies three global regex replacements in order:
`/<[^>]*>/g` with `""`, then `/javascript:/gi` with `""`, then `/\s+/g`
with a single space, followed by `trim()`. Each replacement is modelled
as a left-to-right scan that removes (or rewrites) non-overlapping
matches and never rescans the produced text, exactly as
`String.prototype.replace` does. -/

/-- Models the JS whitespace class for the characters relevant to this
codebase (space, tab, line feed, carriage return, vertical tab, form
feed, NBSP); the remaining Unicode members of `\s` are omitted. -/
def isJsWS (c : Char) : Bool :=
  c = ' ' || c = '\t' || c = '\n' || c = '\r' || c = '\x0b' || c = '\x0c' || c = ' '

/-- Drops characters up to and including the first `>`. Used for one
match of the tag regex `<[^>]*>`, which spans from a `<` through the
first subsequent `>`. -/
def dropThroughGt : List Char → List Char
  | [] => []
  | c :: rest => if c = '>' then rest else dropThroughGt rest

/-- Fuelled scanner for `text.replace(/<[^>]*>/g, "")`: a `<` that has a
later `>` starts a match that is removed through that first `>`; every
other character is kept. With fuel at least the length of the input the
fuel never runs out. -/
def stripTagsF : Nat → List Char → List Char
  | 0, l => l
  | _ + 1, [] => []
  | fuel + 1, c :: rest =>
    if c = '<' && rest.contains '>' then stripTagsF fuel (dropThroughGt rest)
    else c :: stripTagsF fuel rest

def stripTags (l : List Char) : List Char := stripTagsF l.length l

/-- The characters of the removed scheme `javascript:`. -/
def jsKeyword : List Char := "javascript:".data

/-- Case-insensitive character comparison, as used by the `i` flag. -/
def eqIC (a b : Char) : Bool := a.toLower = b.toLower

/-- Case-insensitive prefix test on character lists. -/
def isPrefixIC : List Char → List Char → Bool
  | [], _ => true
  | _ :: _, [] => false
  | a :: as, b :: bs => eqIC a b && isPrefixIC as bs

/-- Fuelled scanner for `text.replace(/javascript:/gi, "")`: each
left-to-right, non-overlapping, case-insensitive occurrence of
`javascript:` is removed and scanning resumes after it. -/
def stripJSF : Nat → List Char → List Char
  | 0, l => l
  | _ + 1, [] => []
  | fuel + 1, c :: rest =>
    if isPrefixIC jsKeyword (c :: rest) then stripJSF fuel ((c :: rest).drop jsKeyword.length)
    else c :: stripJSF fuel rest

def stripJS (l : List Char) : List Char := stripJSF l.length l

/-- True iff the list has a case-insensitive occurrence of
`javascript:` somewhere. -/
def containsJSIC : List Char → Bool
  | [] => false
  | c :: rest => isPrefixIC jsKeyword (c :: rest) || containsJSIC rest

/-- Models `text.replace(/\s+/g, " ")`: every maximal run of whitespace
characters becomes one space. -/
def collapseWS : List Char → List Char
  | [] => []
  | [c] => if isJsWS c then [' '] else [c]
  | a :: b :: rest =>
    if isJsWS a && isJsWS b then collapseWS (b :: rest)
    else (if isJsWS a then ' ' else a) :: collapseWS (b :: rest)

/-- Models `String.prototype.trim` over the modelled whitespace class. -/
def trimWS (l : List Char) : List Char :=
  ((l.dropWhile isJsWS).reverse.dropWhile isJsWS).reverse

/-- Models `sanitizeInput(text)` for string input: strip HTML tags, strip
the `javascript:` scheme, then collapse whitespace and trim. The empty
string (falsy in JS) is returned unchanged. -/
def sanitizeInput (text : String) : String :=
  if text = "" then text
  else ⟨trimWS (collapseWS (stripJS (stripTags text.data)))⟩

/-- A character list with no match of the tag regex: no `<` is followed
(anywhere later) by a `>`. -/
def NoTagPattern (l : List Char) : Prop := ¬ (['<', '>'].Sublist l)

/-- A character list in the image of whitespace collapsing: every
whitespace character is a plain space and no two adjacent characters are
both whitespace. -/
def WsCollapsed (l : List Char) : Prop :=
  (∀ c ∈ l, isJsWS c = true → c = ' ') ∧
  l.Chain' (fun a b => isJsWS a = false ∨ isJsWS b = false)

/-! ### safety.js: emergency escalation -/

def EMERGENCY_KEYWORDS : List String := [
  "chest pain",
  "difficulty breathing",
  "unconscious",
  "severe bleeding",
  "stroke",
  "heart attack",
  "seizure",
  "suicide",
  "self-harm",
  "poisoning",
  "allergic reaction",
  "anaphylaxis"
]

def EMERGENCY_MESSAGE : String :=
  "⚠️ EMERGENCY INDICATORS DETECTED. This case should be flagged as URGENT and reviewed immediately."

/-- Result shape of `checkEmergencyEscalation`. -/
structure EmergencyVerdict where
  isEmergency : Bool
  triggers : List String
  recommendedAction : Option String
  message : Option String
deriving DecidableEq, Repr

/-- Models `checkEmergencyEscalation(text)`; `none` models a missing or
non-string argument. -/
def checkEmergencyEscalation (text : Option String) : EmergencyVerdict :=
  match text with
  | none => ⟨false, [], none, none⟩
  | some t =>
    if t = "" then ⟨false, [], none, none⟩
    else
      let lowerText := lowerStr t
      let triggers :=
        EMERGENCY_KEYWORDS.filter (fun k => strIncludes lowerText (lowerStr k))
      if triggers.length > 0 then
        ⟨true, triggers, some "IMMEDIATE_ESCALATION", some EMERGENCY_MESSAGE⟩
      else ⟨false, [], none, none⟩

/-- The three case priorities (`CasePriority` in constants.js). -/
inductive Priority where
  | ROUTINE
  | ELEVATED
  | URGENT
deriving DecidableEq, Repr

/-- Result shape of `suggestPriority`. -/
structure PriorityAdvice where
  suggestedPriority : Priority
  reason : String
  isEscalation : Bool
deriving DecidableEq, Repr

/-- Models `suggestPriority(chiefComplaint, currentPriority)`. -/
def suggestPriority (chiefComplaint : Option String) (currentPriority : Priority) :
    PriorityAdvice :=
  let emergency := checkEmergencyEscalation chiefComplaint
  if emergency.isEmergency then
    ⟨Priority.URGENT,
     "Emergency keywords detected: " ++ String.intercalate ", " emergency.triggers,
     currentPriority ≠ Priority.URGENT⟩
  else
    ⟨currentPriority, "No emergency indicators detected", false⟩

/-! ### CaseFile.js: doctor queue ordering and statistics -/

/-- The four case statuses (`CaseStatus` in constants.js). -/
inductive CaseStatus where
  | DRAFT
  | PENDING_REVIEW
  | REVIEWED
  | CLOSED
deriving DecidableEq, Repr

/-- The stored case-row fields read by the queue and statistics logic;
creation timestamps are modelled as integers. -/
structure QCase where
  status : CaseStatus
  priority : Priority
  createdAt : Int
deriving DecidableEq, Repr

/-- Models the comparator table `priorityOrder`: URGENT 1, ELEVATED 2,
ROUTINE 3. -/
def priorityOrder : Priority → Int
  | .URGENT => 1
  | .ELEVATED => 2
  | .ROUTINE => 3

/-- Models the comparator passed to `filtered.sort` in
`getAllCaseFiles`: priority-rank difference first; on a tie, creation
time ascending for ROUTINE and descending otherwise. -/
def caseCmp (a b : QCase) : Int :=
  let priorityDiff := priorityOrder a.priority - priorityOrder b.priority
  if priorityDiff ≠ 0 then priorityDiff
  else if a.priority = Priority.ROUTINE then a.createdAt - b.createdAt
  else b.createdAt - a.createdAt

/-- `a` sorts no later than `b` under the queue comparator (the
comparator result is nonpositive). -/
def caseLE (a b : QCase) : Prop := caseCmp a b ≤ 0

instance : DecidableRel caseLE :=
  fun a b => inferInstanceAs (Decidable (caseCmp a b ≤ 0))

/-- Models the `filtered.sort(comparator)` call. `Array.prototype.sort`
is stable and the comparator is antisymmetric, so any stable sorting
algorithm produces the same list; insertion sort is one. -/
def sortCases (l : List QCase) : List QCase := l.insertionSort caseLE

/-- Filter and pagination options of `getAllCaseFiles`, with the JS
default values. -/
structure QueueOptions where
  page : Nat := 1
  limit : Nat := 20
  status : Option CaseStatus := none
  priority : Option Priority := none

/-- The `pagination` part of the `getAllCaseFiles` result. -/
structure Pagination where
  page : Nat
  limit : Nat
  total : Nat
  totalPages : Nat
deriving DecidableEq, Repr

/-- The result of `getAllCaseFiles`. -/
structure QueuePage where
  cases : List QCase
  pagination : Pagination
deriving DecidableEq, Repr

/-- Models `getAllCaseFiles(options)`: filter by status and priority,
sort with the queue comparator, then slice the requested page
(`slice(offset, offset + limit)`). Joining patient info and summary
formatting neither drop nor reorder rows, so the model returns the case
rows themselves. `Math.ceil(total / limit)` is modelled by rounded-up
natural division. -/
def getAllCaseFiles (db : List QCase) (opts : QueueOptions) : QueuePage :=
  let offset := (opts.page - 1) * opts.limit
  let filtered₁ :=
    match opts.status with
    | none => db
    | some s => db.filter (fun c => c.status = s)
  let filtered :=
    match opts.priority with
    | none => filtered₁
    | some p => filtered₁.filter (fun c => c.priority = p)
  let sorted := sortCases filtered
  let total := sorted.length
  ⟨(sorted.drop offset).take opts.limit,
   ⟨opts.page, opts.limit, total, (total + opts.limit - 1) / opts.limit⟩⟩

/-- The result of `getQueueStats` (caseService.js). -/
structure QueueStats where
  total : Nat
  byStatus : CaseStatus → Nat
  byPriority : Priority → Nat
  urgentCount : Nat
  pendingReviewCount : Nat

/-- Models `getQueueStats()`: it reads `getAllCaseFiles(\x7b limit: 1000 \x7d)`
and counts statuses and priorities over the returned page (hence over at
most the first 1000 cases in queue order), while `total` is
`pagination.total`, the size of the whole store. -/
def getQueueStats (db : List QCase) : QueueStats :=
  let allCases := getAllCaseFiles db { limit := 1000 }
  { total := allCases.pagination.total
    byStatus := fun s => allCases.cases.countP (fun c => c.status = s)
    byPriority := fun p => allCases.cases.countP (fun c => c.priority = p)
    urgentCount := allCases.cases.countP (fun c => c.priority = Priority.URGENT)
    pendingReviewCount :=
      allCases.cases.countP (fun c => c.status = CaseStatus.PENDING_REVIEW) }

/-- The queue ordering stated by the spec, as a relation between two
cases: strictly more urgent tier first; within a tier, ascending
creation time for ROUTINE and descending creation time otherwise. -/
def specOrder (a b : QCase) : Prop :=
  priorityOrder a.priority < priorityOrder b.priority ∨
  (a.priority = b.priority ∧
    ((a.priority = Priority.ROUTINE ∧ a.createdAt ≤ b.createdAt) ∨
     (a.priority ≠ Priority.ROUTINE ∧ b.createdAt ≤ a.createdAt)))

/-! ### caseService.js: submitCase -/

/-- Vital signs input (`VitalSignsSchema`). JS numbers are modelled as
integers; `none` models an absent or null field. -/
structure VitalSigns where
  temperature : Option Int := none
  bloodPressure : Option String := none
  pulseRate : Option Int := none
  weight : Option Int := none
deriving DecidableEq, Repr

/-- The blood-pressure format regex: two to three digits, a slash, two
to three digits. -/
def isBPFormat (s : String) : Bool :=
  match s.splitOn "/" with
  | [a, b] =>
    decide (2 ≤ a.length) && decide (a.length ≤ 3) && a.data.all Char.isDigit &&
    decide (2 ≤ b.length) && decide (b.length ≤ 3) && b.data.all Char.isDigit
  | _ => false

/-- Validity of the vital signs object under `VitalSignsSchema`. -/
def validVitalSigns (v : VitalSigns) : Bool :=
  (match v.temperature with
   | none => true
   | some t => decide (90 ≤ t) && decide (t ≤ 110)) &&
  (match v.bloodPressure with
   | none => true
   | some bp => isBPFormat bp) &&
  (match v.pulseRate with
   | none => true
   | some r => decide (30 ≤ r) && decide (r ≤ 250)) &&
  (match v.weight with
   | none => true
   | some w => decide (1 ≤ w) && decide (w ≤ 500))

/-- The attachment types (`AttachmentType` in constants.js). -/
def ATTACHMENT_TYPES : List String := ["LAB_REPORT", "PRESCRIPTION", "IMAGE", "OTHER"]

/-- One attachment (`AttachmentSchema`). -/
structure Attachment where
  type : String
  description : String
  url : Option String := none
deriving DecidableEq, Repr

/-- Validity of one attachment. The `z.string().url()` format check on
`url` is not modelled (no claim reads it), so it is accepted as is. -/
def validAttachment (a : Attachment) : Bool :=
  ATTACHMENT_TYPES.contains a.type &&
  decide (1 ≤ a.description.length) && decide (a.description.length ≤ 500)

/-- Input of `submitCase` (`CreateCaseSchema` shape); `none` models an
absent or null optional key. -/
structure CreateCaseInput where
  patientId : String
  chiefComplaint : String
  symptomDuration : Option String := none
  rawNotes : Option String := none
  vitalSigns : Option VitalSigns := none
  attachments : Option (List Attachment) := none
  priority : Option Priority := none
deriving DecidableEq, Repr

/-- Models the success condition of `CreateCaseSchema.safeParse`. -/
def validateCreateCase (d : CreateCaseInput) : Bool :=
  decide (1 ≤ d.patientId.length) &&
  decide (5 ≤ d.chiefComplaint.length) && decide (d.chiefComplaint.length ≤ 1000) &&
  (match d.symptomDuration with
   | none => true
   | some s => decide (s.length ≤ 100)) &&
  (match d.rawNotes with
   | none => true
   | some s => decide (s.length ≤ 5000)) &&
  (match d.vitalSigns with
   | none => true
   | some v => validVitalSigns v) &&
  (match d.attachments with
   | none => true
   | some as => decide (as.length ≤ 10) && as.all validAttachment)

/-- The created case row (`createCaseFile`), restricted to the fields
the claims read; the generated id and the wall-clock timestamps are not
modelled. -/
structure CreatedCase where
  patientId : String
  status : String
  priority : Priority
  chiefComplaint : String
  symptomDuration : Option String
  rawNotes : Option String
  vitalSigns : Option VitalSigns
  attachments : Option (List Attachment)
deriving DecidableEq, Repr

/-- Models `createCaseFile(data)` on a `submitCase` payload: status
defaults to DRAFT and priority to ROUTINE. -/
def createCaseFile (d : CreateCaseInput) : CreatedCase :=
  { patientId := d.patientId
    status := "DRAFT"
    priority := d.priority.getD Priority.ROUTINE
    chiefComplaint := d.chiefComplaint
    symptomDuration := d.symptomDuration
    rawNotes := d.rawNotes
    vitalSigns := d.vitalSigns
    attachments := d.attachments }

/-- One entry of the `warnings` array of a successful `submitCase`. -/
structure CaseWarning where
  type : String
  message : String
  triggers : List String := []
  suggestedPriority : Option Priority := none
deriving DecidableEq, Repr

/-- The discriminated result of `submitCase`: `success: false` with an
error code, or `success: true` with the created case and the warnings
array (an absent `warnings` key is modelled by the empty list). -/
inductive SubmitResult where
  | failure (error : String)
  | ok (caseFile : CreatedCase) (warnings : List CaseWarning)
deriving DecidableEq, Repr

/-- Models `submitCase(data)`. The patient-lookup collaborator is
modelled by the list of existing patient ids. The in-memory
`createCaseFile` never throws, so the `DATABASE_ERROR` catch is
unreachable and not modelled. -/
def submitCase (patients : List String) (data : CreateCaseInput) : SubmitResult :=
  if ¬ validateCreateCase data then SubmitResult.failure "VALIDATION_ERROR"
  else if ¬ patients.contains data.patientId then SubmitResult.failure "NOT_FOUND"
  else
    let chief := sanitizeInput data.chiefComplaint
    let rawNotes :=
      match data.rawNotes with
      | some s => if s = "" then none else some (sanitizeInput s)
      | none => none
    let emergency := checkEmergencyEscalation (some chief)
    let priority1 := if emergency.isEmergency then some Priority.URGENT else data.priority
    let prioritySuggestion := suggestPriority (some chief) (priority1.getD Priority.ROUTINE)
    let caseFile := createCaseFile
      { data with chiefComplaint := chief, rawNotes := rawNotes, priority := priority1 }
    let warnings :=
      (if emergency.isEmergency then
        [{ type := "EMERGENCY_ESCALATION", message := emergency.message.getD "",
           triggers := emergency.triggers : CaseWarning }]
       else []) ++
      (if prioritySuggestion.isEscalation then
        [{ type := "PRIORITY_SUGGESTION", message := prioritySuggestion.reason,
           suggestedPriority := some prioritySuggestion.suggestedPriority : CaseWarning }]
       else [])
    SubmitResult.ok caseFile warnings

/-! ### caseService.js: updateCase -/

/-- A stored case as read and written by `updateCase`, restricted to the
fields an update patch can touch; the status is stored as a string. -/
structure StoredCase where
  id : String
  status : String
  priority : Priority
  rawNotes : Option String
  vitalSigns : Option VitalSigns
  doctorNotes : Option String
  doctorDecision : Option String
deriving DecidableEq, Repr

/-- An `updateCase` patch (`UpdateCaseSchema` shape). The outer `Option`
models key presence, the inner one an explicit `null`. -/
structure UpdatePatch where
  priority : Option Priority := none
  rawNotes : Option (Option String) := none
  vitalSigns : Option (Option VitalSigns) := none
  doctorNotes : Option (Option String) := none
  doctorDecision : Option (Option String) := none
deriving DecidableEq, Repr

/-- Models `Object.keys(validation.data)` in schema declaration order. -/
def patchKeys (p : UpdatePatch) : List String :=
  (if p.priority.isSome then ["priority"] else []) ++
  (if p.rawNotes.isSome then ["rawNotes"] else []) ++
  (if p.vitalSigns.isSome then ["vitalSigns"] else []) ++
  (if p.doctorNotes.isSome then ["doctorNotes"] else []) ++
  (if p.doctorDecision.isSome then ["doctorDecision"] else [])

/-- Models the success condition of `UpdateCaseSchema.safeParse`. -/
def validateUpdatePatch (p : UpdatePatch) : Bool :=
  (match p.rawNotes with
   | some (some s) => decide (s.length ≤ 5000)
   | _ => true) &&
  (match p.vitalSigns with
   | some (some v) => validVitalSigns v
   | _ => true) &&
  (match p.doctorNotes with
   | some (some s) => decide (s.length ≤ 5000)
   | _ => true) &&
  (match p.doctorDecision with
   | some (some s) => decide (s.length ≤ 2000)
   | _ => true)

/-- JS truthiness of an optional nullable string field: present,
non-null and nonempty. -/
def truthyStr (x : Option (Option String)) : Option String :=
  match x with
  | some (some s) => if s = "" then none else some s
  | _ => none

/-- Models `updateCaseFile` applying the sanitized patch to one stored
case: each present field overwrites the stored one; a falsy text field
was mapped to `undefined` by `updateCase` and is left unapplied. -/
def applyPatch (c : StoredCase) (p : UpdatePatch) : StoredCase :=
  { c with
    priority := match p.priority with | some pr => pr | none => c.priority
    vitalSigns := match p.vitalSigns with | some v => v | none => c.vitalSigns
    rawNotes := match truthyStr p.rawNotes with
      | some s => some (sanitizeInput s)
      | none => c.rawNotes
    doctorNotes := match truthyStr p.doctorNotes with
      | some s => some (sanitizeInput s)
      | none => c.doctorNotes
    doctorDecision := match truthyStr p.doctorDecision with
      | some s => some (sanitizeInput s)
      | none => c.doctorDecision }

/-- The discriminated result of `updateCase`. -/
inductive UpdateResult where
  | notFound
  | validationError
  | invalidState (blocked : List (String × String))
  | safetyViolation (violations : List String)
  | ok (updated : StoredCase)
deriving DecidableEq, Repr

/-- Models `updateCase(id, data)` over the stored case list, returning
the result together with the store after the call (`updateCaseFile`
touches the store only on the success path). -/
def updateCase (db : List StoredCase) (id : String) (patch : UpdatePatch) :
    UpdateResult × List StoredCase :=
  match db.find? (fun c => c.id = id) with
  | none => (UpdateResult.notFound, db)
  | some existing =>
    if ¬ validateUpdatePatch patch then (UpdateResult.validationError, db)
    else
      let blockedFields := (patchKeys patch).filterMap (fun field =>
        let editability := isFieldEditable field existing.status
        if editability.editable then none else some (field, editability.reason))
      if blockedFields.length > 0 then (UpdateResult.invalidState blockedFields, db)
      else
        let persist := db.set (db.findIdx (fun c => c.id = id)) (applyPatch existing patch)
        match truthyStr patch.doctorNotes with
        | some notes =>
          let safety := validateContentSafety (some notes)
          if ¬ safety.safe then (UpdateResult.safetyViolation safety.violations, db)
          else (UpdateResult.ok (applyPatch existing patch), persist)
        | none => (UpdateResult.ok (applyPatch existing patch), persist)

end AyurVaidya

namespace AyurVaidya

/-! ### Theorems for claims C1, C3, C10 -/

/-- C1: for every target status `t`, `isValidStatusTransition "CLOSED" t`
returns `false`, so CLOSED is an absorbing state of the case lifecycle
graph. -/
theorem closed_status_is_absorbing (t : String) :
    isValidStatusTransition "CLOSED" t = false := by
  simp [isValidStatusTransition, STATUS_TRANSITIONS]

/-- C3: each field of the pre-review-only set is editable exactly in
DRAFT status: `isFieldEditable f "DRAFT"` reports editable, and for any
status `s ≠ "DRAFT"` the field is not editable. -/
theorem preReviewField_editable_iff_draft (f s : String)
    (hf : f ∈ PRE_REVIEW_ONLY_FIELDS) (hs : s ≠ "DRAFT") :
    (isFieldEditable f "DRAFT").editable = true ∧
    (isFieldEditable f s).editable = false := by
  fin_cases hf <;>
    simp [isFieldEditable, IMMUTABLE_FIELDS, SYSTEM_MANAGED_FIELDS,
      PRE_REVIEW_ONLY_FIELDS, DOCTOR_ONLY_FIELDS, hs]

/-- Witness for C3 at `f = "rawNotes"`, `s = "CLOSED"`. -/
theorem preReviewField_editable_iff_draft_witness :
    (isFieldEditable "rawNotes" "DRAFT").editable = true ∧
    (isFieldEditable "rawNotes" "CLOSED").editable = false :=
  preReviewField_editable_iff_draft "rawNotes" "CLOSED" (by decide) (by decide)

/-- Helper: `includesSub` succeeds whenever the needle is a prefix of the
haystack. -/
theorem includesSub_of_isPrefixOf (h n : List Char) (hp : n.isPrefixOf h = true) :
    includesSub h n = true := by
  rw [includesSub.eq_def, hp, Bool.true_or]

/-- Helper: a list that literally occurs between `a` and `b` is found by
`includesSub`. -/
theorem includesSub_append_middle (a n b : List Char) :
    includesSub (a ++ n ++ b) n = true := by
  induction a with
  | nil =>
    refine includesSub_of_isPrefixOf _ _ ?_
    simp [List.prefix_append n b]
  | cons x a ih =>
    rw [includesSub.eq_def]
    simp only [List.cons_append]
    rw [ih]
    simp

/-- Helper: every prohibited term is a nonempty string. -/
theorem prohibited_terms_nonempty (term : String)
    (h : term ∈ PROHIBITED_DIAGNOSIS_TERMS ∨ term ∈ PROHIBITED_MEDICAL_CLAIMS) :
    term.data ≠ [] := by
  rcases h with h | h <;> fin_cases h <;> decide

/-- Helper: `safe` is the emptiness bit of `violations`, for any input. -/
theorem validateContentSafety_safe_iff (t : Option String) :
    (validateContentSafety t).safe = true ↔
      (validateContentSafety t).violations = [] := by
  match t with
  | none => simp [validateContentSafety]
  | some s =>
    rw [validateContentSafety]
    by_cases hs : s = "" <;> simp [hs]

/-- C2: if `text` contains a prohibited term (case-insensitively, as a
substring) then `validateContentSafety` reports unsafe and one of its
violation entries carries that exact term verbatim; moreover, for every
input, `safe` holds iff the violations list is empty. -/
theorem validateContentSafety_flags_term (text term : String)
    (hterm : term ∈ PROHIBITED_DIAGNOSIS_TERMS ∨ term ∈ PROHIBITED_MEDICAL_CLAIMS)
    (hsub : strIncludes (lowerStr text) (lowerStr term) = true) :
    (validateContentSafety (some text)).safe = false ∧
    (∃ v ∈ (validateContentSafety (some text)).violations,
        strIncludes v term = true) ∧
    ∀ t : Option String,
      ((validateContentSafety t).safe = true ↔
        (validateContentSafety t).violations = []) := by
  have htne : term.data ≠ [] := prohibited_terms_nonempty term hterm
  have htext : ¬ text = "" := by
    intro h
    subst h
    rw [strIncludes] at hsub
    simp only [lowerStr] at hsub
    rw [includesSub.eq_def] at hsub
    simp at hsub
    exact htne hsub
  have hmem : term ∈ PROHIBITED_DIAGNOSIS_TERMS.filter
        (fun u => strIncludes (lowerStr text) (lowerStr u)) ∨
      term ∈ PROHIBITED_MEDICAL_CLAIMS.filter
        (fun u => strIncludes (lowerStr text) (lowerStr u)) := by
    rcases hterm with h | h
    · exact Or.inl (List.mem_filter.mpr ⟨h, hsub⟩)
    · exact Or.inr (List.mem_filter.mpr ⟨h, hsub⟩)
  refine ⟨?_, ?_, validateContentSafety_safe_iff⟩
  · simp only [validateContentSafety, if_neg htext]
    rw [List.isEmpty_eq_false]
    intro hcon
    rcases List.append_eq_nil.mp hcon with ⟨h1, h2⟩
    rcases hmem with hm | hm
    · rw [List.map_eq_nil_iff.mp h1] at hm
      simp at hm
    · rw [List.map_eq_nil_iff.mp h2] at hm
      simp at hm
  · simp only [validateContentSafety, if_neg htext]
    rcases hmem with hm | hm
    · refine ⟨"Contains prohibited term: \"" ++ term ++ "\"", ?_, ?_⟩
      · simp only [List.mem_append, List.mem_map]
        exact Or.inl ⟨term, hm, rfl⟩
      · show includesSub _ _ = true
        have hdata : ("Contains prohibited term: \"" ++ term ++ "\"").data =
            "Contains prohibited term: \"".data ++ term.data ++ "\"".data := by
          simp
        rw [hdata]
        exact includesSub_append_middle _ _ _
    · refine ⟨"Contains prohibited claim: \"" ++ term ++ "\"", ?_, ?_⟩
      · simp only [List.mem_append, List.mem_map]
        exact Or.inr ⟨term, hm, rfl⟩
      · show includesSub _ _ = true
        have hdata : ("Contains prohibited claim: \"" ++ term ++ "\"").data =
            "Contains prohibited claim: \"".data ++ term.data ++ "\"".data := by
          simp
        rw [hdata]
        exact includesSub_append_middle _ _ _

/-- Witness for C2 at `text = "You have a cold"`, `term = "you have"`. -/
theorem validateContentSafety_flags_term_witness :
    (validateContentSafety (some "You have a cold")).safe = false ∧
    (∃ v ∈ (validateContentSafety (some "You have a cold")).violations,
        strIncludes v "you have" = true) ∧
    ∀ t : Option String,
      ((validateContentSafety t).safe = true ↔
        (validateContentSafety t).violations = []) :=
  validateContentSafety_flags_term "You have a cold" "you have"
    (Or.inl (by decide)) (by decide)

/-! ### Sanitization lemmas (towards C9) -/

/-- Dropping through the first `>` shortens the list. -/
theorem dropThroughGt_length (l : List Char) : (dropThroughGt l).length ≤ l.length := by
  induction l with
  | nil => simp [dropThroughGt]
  | cons c rest ih =>
    rw [dropThroughGt]
    split
    · simp
    · exact Nat.le_succ_of_le ih

/-- Dropping through the first `>` yields a sublist. -/
theorem dropThroughGt_sublist (l : List Char) : List.Sublist (dropThroughGt l) l := by
  induction l with
  | nil => simp [dropThroughGt]
  | cons c rest ih =>
    rw [dropThroughGt]
    split
    · exact (List.sublist_cons_self c rest)
    · exact ih.cons c

/-- The tag stripper only removes characters. -/
theorem stripTagsF_sublist : ∀ (fuel : Nat) (l : List Char),
    List.Sublist (stripTagsF fuel l) l := by
  intro fuel
  induction fuel with
  | zero => intro l; exact List.Sublist.refl l
  | succ fuel ih =>
    intro l
    match l with
    | [] => exact List.Sublist.refl []
    | c :: rest =>
      rw [stripTagsF]
      split
      · exact ((ih (dropThroughGt rest)).trans (dropThroughGt_sublist rest)).trans
          (List.sublist_cons_self c rest)
      · exact (ih rest).cons₂ c

/-- A `NoTagPattern` list survives any sublist step. -/
theorem noTagPattern_of_sublist {l l' : List Char}
    (h : NoTagPattern l) (hs : List.Sublist l' l) : NoTagPattern l' :=
  fun hcon => h (hcon.trans hs)

/-- With enough fuel, the output of the tag stripper has no remaining
tag pattern. -/
theorem stripTagsF_noTag : ∀ (fuel : Nat) (l : List Char), l.length ≤ fuel →
    NoTagPattern (stripTagsF fuel l) := by
  intro fuel
  induction fuel with
  | zero =>
    intro l hl
    have : l = [] := List.eq_nil_of_length_eq_zero (Nat.le_zero.mp hl)
    subst this
    intro hcon
    simp [stripTagsF] at hcon
  | succ fuel ih =>
    intro l hl
    match l with
    | [] =>
      intro hcon
      simp [stripTagsF] at hcon
    | c :: rest =>
      rw [stripTagsF]
      split
      · exact ih (dropThroughGt rest)
          (Nat.le_trans (dropThroughGt_length rest) (Nat.le_of_succ_le_succ hl))
      · rename_i hcond
        intro hcon
        have hrest : NoTagPattern (stripTagsF fuel rest) :=
          ih rest (Nat.le_of_succ_le_succ hl)
        cases hcon with
        | cons _ htail => exact hrest htail
        | cons₂ _ hgt =>
          -- in this branch the head is `<`, so the guard means `rest` holds no `>`
          have hmem : '>' ∈ stripTagsF fuel rest :=
            List.singleton_sublist.mp hgt
          have hinrest : '>' ∈ rest := (stripTagsF_sublist fuel rest).subset hmem
          have : rest.contains '>' = true := by
            simpa [List.contains_eq_any_beq] using hinrest
          simp [this] at hcond
          exact hcond hinrest

/-- The tag stripper leaves a `NoTagPattern` list unchanged. -/
theorem stripTagsF_of_noTag : ∀ (fuel : Nat) (l : List Char), NoTagPattern l →
    stripTagsF fuel l = l := by
  intro fuel
  induction fuel with
  | zero => intro l _; rfl
  | succ fuel ih =>
    intro l hl
    match l with
    | [] => rfl
    | c :: rest =>
      rw [stripTagsF]
      have hcond : (c = '<' && rest.contains '>') = false := by
        by_contra hcontra
        have hc : c = '<' ∧ rest.contains '>' = true := by simp_all
        refine hl ?_
        have : '>' ∈ rest := by
          have := hc.2
          simpa [List.contains_eq_any_beq] using this
        exact hc.1 ▸ (List.singleton_sublist.mpr this).cons₂ '<'
      rw [hcond]
      simp only [Bool.false_eq_true, if_false]
      have : NoTagPattern rest :=
        noTagPattern_of_sublist hl (List.sublist_cons_self c rest)
      rw [ih rest this]

/-- The output of `stripTags` holds no tag pattern. -/
theorem stripTags_noTag (l : List Char) : NoTagPattern (stripTags l) :=
  stripTagsF_noTag l.length l (Nat.le_refl _)

/-- `stripTags` leaves a `NoTagPattern` list unchanged. -/
theorem stripTags_of_noTag (l : List Char) (h : NoTagPattern l) : stripTags l = l :=
  stripTagsF_of_noTag l.length l h

/-- The scheme stripper only removes characters. -/
theorem stripJSF_sublist : ∀ (fuel : Nat) (l : List Char),
    List.Sublist (stripJSF fuel l) l := by
  intro fuel
  induction fuel with
  | zero => intro l; exact List.Sublist.refl l
  | succ fuel ih =>
    intro l
    match l with
    | [] => exact List.Sublist.refl []
    | c :: rest =>
      rw [stripJSF]
      split
      · exact (ih _).trans (List.drop_sublist _ _)
      · exact (ih rest).cons₂ c

/-- The scheme stripper leaves a list without any case-insensitive
`javascript:` occurrence unchanged. -/
theorem stripJSF_of_not_contains : ∀ (fuel : Nat) (l : List Char),
    containsJSIC l = false → stripJSF fuel l = l := by
  intro fuel
  induction fuel with
  | zero => intro l _; rfl
  | succ fuel ih =>
    intro l hl
    match l with
    | [] => rfl
    | c :: rest =>
      rw [containsJSIC] at hl
      simp only [Bool.or_eq_false_iff] at hl
      rw [stripJSF, hl.1]
      simp only [Bool.false_eq_true, if_false]
      rw [ih rest hl.2]

/-- Whitespace collapsing maps a sublist of the input pointwise, sending
whitespace to a space and fixing everything else. -/
theorem collapseWS_shape (l : List Char) :
    ∃ m, List.Sublist m l ∧
      collapseWS l = m.map (fun c => if isJsWS c then ' ' else c) := by
  induction l with
  | nil => exact ⟨[], by simp [collapseWS]⟩
  | cons a t ih =>
    match t with
    | [] =>
      refine ⟨[a], by simp, ?_⟩
      rw [collapseWS]
      by_cases h : isJsWS a <;> simp [h]
    | b :: rest =>
      rcases ih with ⟨m, hm, hc⟩
      rw [collapseWS]
      by_cases hab : isJsWS a && isJsWS b
      · rw [if_pos hab]
        exact ⟨m, hm.trans (List.sublist_cons_self a _), hc⟩
      · rw [if_neg hab]
        exact ⟨a :: m, hm.cons₂ a, by rw [List.map, hc]⟩

/-- Whitespace collapsing cannot create a tag pattern. -/
theorem collapseWS_noTag {l : List Char} (h : NoTagPattern l) :
    NoTagPattern (collapseWS l) := by
  rcases collapseWS_shape l with ⟨m, hm, hc⟩
  rw [NoTagPattern, hc]
  intro hcon
  rcases List.sublist_map_iff.mp hcon with ⟨m', hm', heq⟩
  cases m' with
  | nil => simp at heq
  | cons a m2 =>
    cases m2 with
    | nil => simp at heq
    | cons b m3 =>
      cases m3 with
      | cons c m4 => simp at heq
      | nil =>
        simp only [List.map, List.map_nil, List.cons.injEq, and_true] at heq
        have ha : a = '<' := by
          have h1 := heq.1
          by_cases hw : isJsWS a
          · rw [if_pos hw] at h1; exact absurd h1.symm (by decide)
          · rw [if_neg hw] at h1; exact h1.symm
        have hb : b = '>' := by
          have h2 := heq.2
          by_cases hw : isJsWS b
          · rw [if_pos hw] at h2; exact absurd h2.symm (by decide)
          · rw [if_neg hw] at h2; exact h2.symm
        subst ha hb
        exact h (hm'.trans hm)

/-- If the head of the input is not whitespace, collapsing keeps it. -/
theorem collapseWS_cons_of_not_ws (b : Char) (rest : List Char)
    (hb : isJsWS b = false) :
    ∃ t, collapseWS (b :: rest) = b :: t := by
  match rest with
  | [] => exact ⟨[], by simp [collapseWS, hb]⟩
  | c :: rest' =>
    rw [collapseWS]
    rw [hb]
    simp only [Bool.false_and, Bool.false_eq_true, if_false]
    exact ⟨_, rfl⟩

/-- The output of whitespace collapsing is collapsed: whitespace only as
single spaces, never two adjacent. -/
theorem collapseWS_collapsed (l : List Char) : WsCollapsed (collapseWS l) := by
  constructor
  · rcases collapseWS_shape l with ⟨m, _, hc⟩
    rw [hc]
    intro c hcmem hws
    rcases List.mem_map.mp hcmem with ⟨d, _, hd⟩
    by_cases hw : isJsWS d
    · rw [← hd, if_pos hw]
    · rw [← hd, if_neg hw] at hws
      rw [← hd, if_neg hw]
      exact absurd hws (by simp [hw])
  · induction l with
    | nil => simp [collapseWS]
    | cons a t ih =>
      match t with
      | [] =>
        rw [collapseWS]
        by_cases h : isJsWS a <;> simp [h]
      | b :: rest =>
        rw [collapseWS]
        by_cases hab : isJsWS a && isJsWS b
        · rw [if_pos hab]
          exact ih
        · rw [if_neg hab]
          rw [List.chain'_cons']
          refine ⟨?_, ih⟩
          intro y hy
          by_cases ha : isJsWS a
          · have hb : isJsWS b = false := by
              simpa [ha] using hab
            rcases collapseWS_cons_of_not_ws b rest hb with ⟨t', ht'⟩
            rw [ht'] at hy
            simp only [List.head?_cons, Option.mem_def, Option.some.injEq] at hy
            right
            rw [← hy]
            exact hb
          · left
            simp [ha]

/-- A collapsed list is left unchanged by whitespace collapsing. -/
theorem collapseWS_of_collapsed : ∀ (l : List Char), WsCollapsed l →
    collapseWS l = l := by
  intro l
  induction l with
  | nil => intro _; rfl
  | cons a t ih =>
    intro hl
    match t with
    | [] =>
      rw [collapseWS]
      by_cases h : isJsWS a
      · rw [if_pos h, hl.1 a (by simp) h]
      · rw [if_neg h]
    | b :: rest =>
      have hchain := hl.2
      rw [List.chain'_cons] at hchain
      have hab : (isJsWS a && isJsWS b) = false := by
        rcases hchain.1 with h | h <;> simp [h]
      rw [collapseWS, hab]
      simp only [Bool.false_eq_true, if_false]
      have htail : WsCollapsed (b :: rest) :=
        ⟨fun c hc hw => hl.1 c (List.mem_cons_of_mem a hc) hw, hchain.2⟩
      rw [ih htail]
      by_cases h : isJsWS a
      · rw [if_pos h, hl.1 a (by simp) h]
      · rw [if_neg h]

/-- Trimming returns a contiguous slice of its input. -/
theorem trimWS_isSlice (l : List Char) : List.IsInfix (trimWS l) l := by
  have hsuf : List.IsSuffix (l.dropWhile isJsWS) l := List.dropWhile_suffix isJsWS
  have hpre : List.IsPrefix (trimWS l) (l.dropWhile isJsWS) := by
    rw [trimWS]
    have h1 : List.IsSuffix ((l.dropWhile isJsWS).reverse.dropWhile isJsWS)
        (l.dropWhile isJsWS).reverse := List.dropWhile_suffix isJsWS
    have := List.reverse_prefix.mpr h1
    simpa using this
  rcases hsuf with ⟨u, hu⟩
  rcases hpre with ⟨v, hv⟩
  exact ⟨u, v, by rw [List.append_assoc, hv, hu]⟩

/-- Trimming only removes characters. -/
theorem trimWS_sublist (l : List Char) : List.Sublist (trimWS l) l :=
  (trimWS_isSlice l).sublist

/-- A collapsed list stays collapsed along any contiguous slice. -/
theorem wsCollapsed_of_slice {l l' : List Char}
    (h : WsCollapsed l) (hi : List.IsInfix l' l) : WsCollapsed l' :=
  ⟨fun c hc hw => h.1 c (hi.sublist.subset hc) hw, List.Chain'.infix h.2 hi⟩

/-- The head of a `dropWhile` output never satisfies the dropped
predicate. -/
theorem head?_dropWhile_false {p : Char → Bool} {l : List Char} {c : Char}
    (h : (l.dropWhile p).head? = some c) : p c = false := by
  have := List.head?_dropWhile_not p l
  rw [h] at this
  exact this

/-- Trimming a list whose two ends are not whitespace is a no-op. -/
theorem trimWS_of_clean_ends (l : List Char)
    (h1 : ∀ c, l.head? = some c → isJsWS c = false)
    (h2 : ∀ c, l.getLast? = some c → isJsWS c = false) :
    trimWS l = l := by
  have hd : l.dropWhile isJsWS = l := by
    match l with
    | [] => rfl
    | c :: t =>
      rw [List.dropWhile_cons, h1 c rfl]
      simp
  rw [trimWS, hd]
  have hr : l.reverse.dropWhile isJsWS = l.reverse := by
    match hrev : l.reverse with
    | [] => rfl
    | c :: t =>
      rw [List.dropWhile_cons]
      have : l.getLast? = some c := by
        rw [← List.head?_reverse, hrev, List.head?_cons]
      rw [h2 c this]
      simp
  rw [hr, List.reverse_reverse]

/-- Trimming is idempotent. -/
theorem trimWS_idem (l : List Char) : trimWS (trimWS l) = trimWS l := by
  apply trimWS_of_clean_ends
  · intro d hd
    rw [trimWS, List.head?_reverse] at hd
    rcases List.dropWhile_suffix (l := (l.dropWhile isJsWS).reverse) isJsWS with ⟨u, hu⟩
    have hXrev : ((l.dropWhile isJsWS).reverse).getLast? = some d := by
      rw [← hu, List.getLast?_append, hd]
      rfl
    rw [List.getLast?_reverse] at hXrev
    exact head?_dropWhile_false hXrev
  · intro d hd
    rw [trimWS, List.getLast?_reverse] at hd
    exact head?_dropWhile_false hd

/-- C9 counterexample: sanitization is not idempotent. Stripping the
inner `javascript:` from `javajavascript:script:` splices together a new
`javascript:` that the single left-to-right pass never revisits, so a
second sanitization removes it. -/
theorem sanitizeInput_not_idempotent :
    sanitizeInput (sanitizeInput "javajavascript:script:") ≠
      sanitizeInput "javajavascript:script:" := by
  decide

/-- C9 (amended): sanitization is idempotent on every input whose
sanitized form no longer contains a (case-insensitive) occurrence of
`javascript:`. -/
theorem sanitizeInput_idem_of_no_spliced_scheme (x : String)
    (h : containsJSIC (sanitizeInput x).data = false) :
    sanitizeInput (sanitizeInput x) = sanitizeInput x := by
  by_cases hx : x = ""
  · subst hx
    rfl
  · have hsx : sanitizeInput x =
        ⟨trimWS (collapseWS (stripJS (stripTags x.data)))⟩ := by
      rw [sanitizeInput, if_neg hx]
    by_cases hynil : trimWS (collapseWS (stripJS (stripTags x.data))) = []
    · rw [hsx, hynil]
      rfl
    · have hxs : (⟨trimWS (collapseWS (stripJS (stripTags x.data)))⟩ : String) ≠ "" := by
        intro hcon
        exact hynil (congrArg String.data hcon)
      rw [hsx, sanitizeInput, if_neg hxs]
      have hcont : containsJSIC (trimWS (collapseWS (stripJS (stripTags x.data)))) = false := by
        rw [hsx] at h
        exact h
      -- the sanitized output carries no tag pattern
      have hNT1 : NoTagPattern (stripJS (stripTags x.data)) :=
        noTagPattern_of_sublist (stripTags_noTag x.data) (stripJSF_sublist _ _)
      have hNT2 : NoTagPattern (collapseWS (stripJS (stripTags x.data))) :=
        collapseWS_noTag hNT1
      have hNT : NoTagPattern (trimWS (collapseWS (stripJS (stripTags x.data)))) :=
        noTagPattern_of_sublist hNT2 (trimWS_sublist _)
      -- so a second pass strips no tags, and by hypothesis no scheme
      rw [show (⟨trimWS (collapseWS (stripJS (stripTags x.data)))⟩ : String).data =
            trimWS (collapseWS (stripJS (stripTags x.data))) from rfl]
      rw [stripTags_of_noTag _ hNT]
      rw [show stripJS (trimWS (collapseWS (stripJS (stripTags x.data)))) =
            trimWS (collapseWS (stripJS (stripTags x.data))) from
          stripJSF_of_not_contains _ _ hcont]
      -- the sanitized output is collapsed, so collapsing is a no-op,
      -- and trimming is idempotent
      have hcy : WsCollapsed (trimWS (collapseWS (stripJS (stripTags x.data)))) :=
        wsCollapsed_of_slice (collapseWS_collapsed _) (trimWS_isSlice _)
      rw [collapseWS_of_collapsed _ hcy, trimWS_idem]

/-- Witness for the amended C9 at a tag-laden, whitespace-laden input. -/
theorem sanitizeInput_idem_witness :
    sanitizeInput (sanitizeInput "  <p>Hello   world</p>  ") =
      sanitizeInput "  <p>Hello   world</p>  " :=
  sanitizeInput_idem_of_no_spliced_scheme "  <p>Hello   world</p>  " (by decide)

/-- C10: on `null` / non-string (modelled by `none`) and on the empty
string, the safety gates fail open: `validateContentSafety` reports safe
with no violations and `checkEmergencyEscalation` reports no emergency
with no triggers. -/
theorem safety_gates_fail_open_on_missing_text :
    validateContentSafety none = ⟨true, []⟩ ∧
    validateContentSafety (some "") = ⟨true, []⟩ ∧
    checkEmergencyEscalation none = ⟨false, [], none, none⟩ ∧
    checkEmergencyEscalation (some "") = ⟨false, [], none, none⟩ := by
  refine ⟨rfl, ?_, rfl, ?_⟩ <;> simp [validateContentSafety, checkEmergencyEscalation]

/-! ### Queue ordering and statistics (C5, C7) -/

instance : IsTotal QCase caseLE := by
  constructor
  intro a b
  obtain ⟨sa, pa, ta⟩ := a
  obtain ⟨sb, pb, tb⟩ := b
  cases pa <;> cases pb <;>
    simp [caseLE, caseCmp, priorityOrder] <;> omega

instance : IsTrans QCase caseLE := by
  constructor
  intro a b c hab hbc
  obtain ⟨sa, pa, ta⟩ := a
  obtain ⟨sb, pb, tb⟩ := b
  obtain ⟨sc, pc, tc⟩ := c
  cases pa <;> cases pb <;> cases pc <;>
    simp_all [caseLE, caseCmp, priorityOrder] <;> omega

/-- The queue comparator refines the ordering worded in the spec. -/
theorem caseLE_implies_specOrder {a b : QCase} (h : caseLE a b) : specOrder a b := by
  obtain ⟨sa, pa, ta⟩ := a
  obtain ⟨sb, pb, tb⟩ := b
  cases pa <;> cases pb <;>
    simp_all [caseLE, caseCmp, priorityOrder, specOrder] <;> omega

/-- C5: the list operation returns a permutation-sorted queue: the sort
keeps exactly the input cases, and every page it returns is pairwise in
the spec order — URGENT tiers before ELEVATED before ROUTINE, newest
first within URGENT and ELEVATED, oldest first within ROUTINE. -/
theorem getAllCaseFiles_queue_ordering (db : List QCase) (opts : QueueOptions) :
    List.Perm (sortCases db) db ∧
    (getAllCaseFiles db opts).cases.Pairwise specOrder := by
  constructor
  · exact List.perm_insertionSort caseLE db
  · have hsorted : List.Pairwise caseLE (sortCases
        (match opts.priority with
         | none =>
           match opts.status with
           | none => db
           | some s => db.filter (fun c => c.status = s)
         | some p =>
           (match opts.status with
            | none => db
            | some s => db.filter (fun c => c.status = s)).filter
             (fun c => c.priority = p))) :=
      List.sorted_insertionSort caseLE _
    have hspec := hsorted.imp (fun h => caseLE_implies_specOrder h)
    exact ((hspec.sublist (List.drop_sublist _ _)).sublist (List.take_sublist _ _))

/-- Status counts split the length of any case list. -/
theorem countP_status_split (db : List QCase) :
    db.countP (fun c => c.status = CaseStatus.DRAFT) +
    db.countP (fun c => c.status = CaseStatus.PENDING_REVIEW) +
    db.countP (fun c => c.status = CaseStatus.REVIEWED) +
    db.countP (fun c => c.status = CaseStatus.CLOSED) = db.length := by
  induction db with
  | nil => rfl
  | cons c t ih =>
    obtain ⟨s, p, ts⟩ := c
    cases s <;> simp_all [List.countP_cons] <;> omega

/-- Priority counts split the length of any case list. -/
theorem countP_priority_split (db : List QCase) :
    db.countP (fun c => c.priority = Priority.ROUTINE) +
    db.countP (fun c => c.priority = Priority.ELEVATED) +
    db.countP (fun c => c.priority = Priority.URGENT) = db.length := by
  induction db with
  | nil => rfl
  | cons c t ih =>
    obtain ⟨s, p, ts⟩ := c
    cases p <;> simp_all [List.countP_cons] <;> omega

/-- Helper: the fields of `getQueueStats` unfold to counts over the
first 1000 cases of the sorted store. -/
theorem getQueueStats_fields (db : List QCase) :
    (getQueueStats db).total = (sortCases db).length ∧
    (∀ s, (getQueueStats db).byStatus s =
      (((sortCases db).drop 0).take 1000).countP (fun c => c.status = s)) ∧
    (∀ p, (getQueueStats db).byPriority p =
      (((sortCases db).drop 0).take 1000).countP (fun c => c.priority = p)) :=
  ⟨rfl, fun _ => rfl, fun _ => rfl⟩

/-- C7 counterexample: with 1001 stored cases, `getQueueStats` counts
only the first 1000 returned cases, so the DRAFT count disagrees with
the number of DRAFT cases in the full store. -/
theorem getQueueStats_miscounts_beyond_1000 :
    ¬ ((getQueueStats
          (List.replicate 1001 (⟨CaseStatus.DRAFT, Priority.ROUTINE, 0⟩ : QCase))).byStatus
            CaseStatus.DRAFT =
        (List.replicate 1001 (⟨CaseStatus.DRAFT, Priority.ROUTINE, 0⟩ : QCase)).countP
          (fun c => c.status = CaseStatus.DRAFT)) := by
  have hsorted : sortCases
      (List.replicate 1001 (⟨CaseStatus.DRAFT, Priority.ROUTINE, 0⟩ : QCase)) =
      List.replicate 1001 (⟨CaseStatus.DRAFT, Priority.ROUTINE, 0⟩ : QCase) := by
    apply List.eq_replicate_iff.mpr
    constructor
    · exact (List.perm_insertionSort caseLE _).length_eq.trans
        (by rw [List.length_replicate])
    · intro b hb
      have := (List.perm_insertionSort caseLE _).mem_iff.mp hb
      exact List.eq_of_mem_replicate this
  intro hcon
  rw [(getQueueStats_fields _).2.1] at hcon
  rw [hsorted, List.drop_zero, List.take_replicate,
    List.countP_replicate, List.countP_replicate] at hcon
  norm_num at hcon

/-- C7 (amended): provided the store holds at most 1000 cases (the page
size hard-wired into `getQueueStats`), the statistics are exact: `total`
is the store size, the by-status and by-priority counters count the full
store, and each family of counters sums to `total`. -/
theorem getQueueStats_correct_upto_1000 (db : List QCase) (h : db.length ≤ 1000) :
    (getQueueStats db).total = db.length ∧
    (∀ s, (getQueueStats db).byStatus s = db.countP (fun c => c.status = s)) ∧
    (∀ p, (getQueueStats db).byPriority p = db.countP (fun c => c.priority = p)) ∧
    ((getQueueStats db).byStatus CaseStatus.DRAFT +
     (getQueueStats db).byStatus CaseStatus.PENDING_REVIEW +
     (getQueueStats db).byStatus CaseStatus.REVIEWED +
     (getQueueStats db).byStatus CaseStatus.CLOSED = (getQueueStats db).total) ∧
    ((getQueueStats db).byPriority Priority.ROUTINE +
     (getQueueStats db).byPriority Priority.ELEVATED +
     (getQueueStats db).byPriority Priority.URGENT = (getQueueStats db).total) := by
  obtain ⟨ht, hs, hp⟩ := getQueueStats_fields db
  have hperm : List.Perm (sortCases db) db := List.perm_insertionSort caseLE db
  have hlen : (sortCases db).length = db.length := hperm.length_eq
  have hcount : ∀ q : QCase → Bool,
      (((sortCases db).drop 0).take 1000).countP q = db.countP q := by
    intro q
    rw [List.drop_zero, List.take_of_length_le (by omega), hperm.countP_eq]
  have htotal : (getQueueStats db).total = db.length := by rw [ht, hlen]
  have hbyStatus : ∀ s, (getQueueStats db).byStatus s =
      db.countP (fun c => c.status = s) := by
    intro s
    rw [hs s, hcount]
  have hbyPriority : ∀ p, (getQueueStats db).byPriority p =
      db.countP (fun c => c.priority = p) := by
    intro p
    rw [hp p, hcount]
  refine ⟨htotal, hbyStatus, hbyPriority, ?_, ?_⟩
  · rw [htotal, hbyStatus, hbyStatus, hbyStatus, hbyStatus]
    exact countP_status_split db
  · rw [htotal, hbyPriority, hbyPriority, hbyPriority]
    exact countP_priority_split db

/-! ### Case service (C4, C6, C8) -/

/-- Helper: every emergency keyword is a nonempty string. -/
theorem emergency_keywords_nonempty (k : String) (h : k ∈ EMERGENCY_KEYWORDS) :
    k.data ≠ [] := by
  fin_cases h <;> decide

/-- Helper: a string cannot contain a nonempty needle if it is empty. -/
theorem text_ne_empty_of_match {t k : String} (hne : k.data ≠ [])
    (h : strIncludes (lowerStr t) (lowerStr k) = true) : ¬ t = "" := by
  intro hcon
  subst hcon
  rw [strIncludes] at h
  simp only [lowerStr] at h
  rw [includesSub.eq_def] at h
  simp at h
  exact hne h

/-- Helper: on a text with at least one emergency keyword,
`checkEmergencyEscalation` returns the full emergency verdict, its
triggers being exactly the matched keywords. -/
theorem checkEmergencyEscalation_of_match (t : String)
    (h : ∃ k ∈ EMERGENCY_KEYWORDS, strIncludes (lowerStr t) (lowerStr k) = true) :
    checkEmergencyEscalation (some t) =
      ⟨true, EMERGENCY_KEYWORDS.filter (fun k => strIncludes (lowerStr t) (lowerStr k)),
       some "IMMEDIATE_ESCALATION", some EMERGENCY_MESSAGE⟩ := by
  obtain ⟨k, hk, hks⟩ := h
  have htne : ¬ t = "" := text_ne_empty_of_match (emergency_keywords_nonempty k hk) hks
  have hmem : k ∈ EMERGENCY_KEYWORDS.filter (fun u => strIncludes (lowerStr t) (lowerStr u)) :=
    List.mem_filter.mpr ⟨hk, hks⟩
  have hpos : 0 < (EMERGENCY_KEYWORDS.filter
      (fun u => strIncludes (lowerStr t) (lowerStr u))).length :=
    List.length_pos.mpr (List.ne_nil_of_mem hmem)
  simp only [checkEmergencyEscalation, if_neg htne]
  simp [hpos]

/-- C4: a valid submission whose sanitized chief complaint matches at
least one emergency keyword still succeeds, its created case has its
priority forced to URGENT whatever was requested, and the result carries
an EMERGENCY_ESCALATION warning whose triggers hold every matched
keyword. -/
theorem submitCase_emergency_escalation (patients : List String) (data : CreateCaseInput)
    (hvalid : validateCreateCase data = true)
    (hpatient : patients.contains data.patientId = true)
    (hkw : ∃ k ∈ EMERGENCY_KEYWORDS,
      strIncludes (lowerStr (sanitizeInput data.chiefComplaint)) (lowerStr k) = true) :
    ∃ cf ws, submitCase patients data = SubmitResult.ok cf ws ∧
      cf.priority = Priority.URGENT ∧
      ∃ w ∈ ws, w.type = "EMERGENCY_ESCALATION" ∧
        ∀ k ∈ EMERGENCY_KEYWORDS,
          strIncludes (lowerStr (sanitizeInput data.chiefComplaint)) (lowerStr k) = true →
          k ∈ w.triggers := by
  have hem := checkEmergencyEscalation_of_match (sanitizeInput data.chiefComplaint) hkw
  rw [submitCase]
  simp only [hvalid, hpatient, not_true, if_false, hem]
  refine ⟨_, _, rfl, ?_, ?_⟩
  · simp [createCaseFile]
  · refine ⟨_, List.mem_append_left _ (List.mem_singleton_self _), rfl, ?_⟩
    intro k hk hks
    exact List.mem_filter.mpr ⟨hk, hks⟩

/-- Witness for C4: a routine-priority submission with chief complaint
`bad chest pain` for an existing patient. -/
theorem submitCase_emergency_escalation_witness :
    ∃ cf ws, submitCase ["p1"]
        { patientId := "p1", chiefComplaint := "bad chest pain",
          priority := some Priority.ROUTINE } = SubmitResult.ok cf ws ∧
      cf.priority = Priority.URGENT ∧
      ∃ w ∈ ws, w.type = "EMERGENCY_ESCALATION" ∧
        ∀ k ∈ EMERGENCY_KEYWORDS,
          strIncludes (lowerStr (sanitizeInput "bad chest pain")) (lowerStr k) = true →
          k ∈ w.triggers :=
  submitCase_emergency_escalation ["p1"]
    { patientId := "p1", chiefComplaint := "bad chest pain",
      priority := some Priority.ROUTINE }
    (by decide) (by decide) ⟨"chest pain", by decide, by decide⟩

/-- C6: at the failing input — an existing patient, chief complaint
`Sudden chest pain`, requested priority ROUTINE — the independently
computed suggestion is URGENT, different from the requested ROUTINE, yet
the successful result carries only the EMERGENCY_ESCALATION warning and
no PRIORITY_SUGGESTION: the service overwrites the priority with URGENT
before calling `suggestPriority`, so `isEscalation` is always false. -/
theorem submitCase_priority_suggestion_never_fires :
    (suggestPriority (some (sanitizeInput "Sudden chest pain"))
        Priority.ROUTINE).suggestedPriority = Priority.URGENT ∧
    Priority.URGENT ≠ Priority.ROUTINE ∧
    submitCase ["p1"]
        { patientId := "p1", chiefComplaint := "Sudden chest pain",
          priority := some Priority.ROUTINE } =
      SubmitResult.ok
        { patientId := "p1", status := "DRAFT", priority := Priority.URGENT,
          chiefComplaint := "Sudden chest pain", symptomDuration := none,
          rawNotes := none, vitalSigns := none, attachments := none }
        [{ type := "EMERGENCY_ESCALATION", message := EMERGENCY_MESSAGE,
           triggers := ["chest pain"], suggestedPriority := none }] := by
  decide

/-- Helper: the first components of the blocked-field entries are
exactly the patch fields rejected by the editability policy. -/
theorem map_fst_blockedFields (fields : List String) (status : String) :
    ((fields.filterMap (fun field =>
        let editability := isFieldEditable field status
        if editability.editable then none
        else some (field, editability.reason))).map Prod.fst) =
      fields.filter (fun f => !(isFieldEditable f status).editable) := by
  induction fields with
  | nil => rfl
  | cons f t ih =>
    by_cases h : (isFieldEditable f status).editable <;>
      simp [List.filterMap_cons, List.filter_cons, h, ih]

/-- C8: if the case exists, the patch is well-formed, and at least one
patch field is not editable in the current status, then `updateCase`
fails with INVALID_STATE carrying the complete list of rejected fields,
and the store is returned unchanged — no partial application. -/
theorem updateCase_blocked_wholesale (db : List StoredCase) (id : String)
    (patch : UpdatePatch) (existing : StoredCase)
    (hfind : db.find? (fun c => c.id = id) = some existing)
    (hvalid : validateUpdatePatch patch = true)
    (hblocked : ∃ f ∈ patchKeys patch,
      (isFieldEditable f existing.status).editable = false) :
    ∃ blk, updateCase db id patch = (UpdateResult.invalidState blk, db) ∧
      blk.map Prod.fst =
        (patchKeys patch).filter
          (fun f => !(isFieldEditable f existing.status).editable) := by
  obtain ⟨f, hf, hfe⟩ := hblocked
  have hmem : (f, (isFieldEditable f existing.status).reason) ∈
      (patchKeys patch).filterMap (fun field =>
        let editability := isFieldEditable field existing.status
        if editability.editable then none
        else some (field, editability.reason)) := by
    refine List.mem_filterMap.mpr ⟨f, hf, ?_⟩
    simp [hfe]
  have hpos : 0 < ((patchKeys patch).filterMap (fun field =>
      let editability := isFieldEditable field existing.status
      if editability.editable then none
      else some (field, editability.reason))).length :=
    List.length_pos.mpr (List.ne_nil_of_mem hmem)
  rw [updateCase, hfind]
  simp only [hvalid, not_true, if_false, hpos, if_pos]
  exact ⟨_, rfl, map_fst_blockedFields _ _⟩

/-- Witness for C8: patching `doctorNotes` on a DRAFT case. -/
theorem updateCase_blocked_wholesale_witness :
    ∃ blk, updateCase
        [{ id := "c1", status := "DRAFT", priority := Priority.ROUTINE,
           rawNotes := none, vitalSigns := none, doctorNotes := none,
           doctorDecision := none }] "c1"
        { doctorNotes := some (some "note") } =
      (UpdateResult.invalidState blk,
        [{ id := "c1", status := "DRAFT", priority := Priority.ROUTINE,
           rawNotes := none, vitalSigns := none, doctorNotes := none,
           doctorDecision := none }]) ∧
      blk.map Prod.fst =
        (patchKeys { doctorNotes := some (some "note") }).filter
          (fun f => !(isFieldEditable f "DRAFT").editable) :=
  updateCase_blocked_wholesale _ "c1" _
    { id := "c1", status := "DRAFT", priority := Priority.ROUTINE,
      rawNotes := none, vitalSigns := none, doctorNotes := none,
      doctorDecision := none }
    (by decide) (by decide) ⟨"doctorNotes", by decide, by decide⟩

/-- Witness for the amended C7 at a two-case store. -/
theorem getQueueStats_correct_upto_1000_witness :
    (getQueueStats [(⟨CaseStatus.DRAFT, Priority.ROUTINE, 0⟩ : QCase),
        ⟨CaseStatus.CLOSED, Priority.URGENT, 5⟩]).total =
      [(⟨CaseStatus.DRAFT, Priority.ROUTINE, 0⟩ : QCase),
        ⟨CaseStatus.CLOSED, Priority.URGENT, 5⟩].length ∧
    (∀ s, (getQueueStats [(⟨CaseStatus.DRAFT, Priority.ROUTINE, 0⟩ : QCase),
        ⟨CaseStatus.CLOSED, Priority.URGENT, 5⟩]).byStatus s =
      [(⟨CaseStatus.DRAFT, Priority.ROUTINE, 0⟩ : QCase),
        ⟨CaseStatus.CLOSED, Priority.URGENT, 5⟩].countP (fun c => c.status = s)) ∧
    (∀ p, (getQueueStats [(⟨CaseStatus.DRAFT, Priority.ROUTINE, 0⟩ : QCase),
        ⟨CaseStatus.CLOSED, Priority.URGENT, 5⟩]).byPriority p =
      [(⟨CaseStatus.DRAFT, Priority.ROUTINE, 0⟩ : QCase),
        ⟨CaseStatus.CLOSED, Priority.URGENT, 5⟩].countP (fun c => c.priority = p)) ∧
    ((getQueueStats [(⟨CaseStatus.DRAFT, Priority.ROUTINE, 0⟩ : QCase),
        ⟨CaseStatus.CLOSED, Priority.URGENT, 5⟩]).byStatus CaseStatus.DRAFT +
     (getQueueStats [(⟨CaseStatus.DRAFT, Priority.ROUTINE, 0⟩ : QCase),
        ⟨CaseStatus.CLOSED, Priority.URGENT, 5⟩]).byStatus CaseStatus.PENDING_REVIEW +
     (getQueueStats [(⟨CaseStatus.DRAFT, Priority.ROUTINE, 0⟩ : QCase),
        ⟨CaseStatus.CLOSED, Priority.URGENT, 5⟩]).byStatus CaseStatus.REVIEWED +
     (getQueueStats [(⟨CaseStatus.DRAFT, Priority.ROUTINE, 0⟩ : QCase),
        ⟨CaseStatus.CLOSED, Priority.URGENT, 5⟩]).byStatus CaseStatus.CLOSED =
      (getQueueStats [(⟨CaseStatus.DRAFT, Priority.ROUTINE, 0⟩ : QCase),
        ⟨CaseStatus.CLOSED, Priority.URGENT, 5⟩]).total) ∧
    ((getQueueStats [(⟨CaseStatus.DRAFT, Priority.ROUTINE, 0⟩ : QCase),
        ⟨CaseStatus.CLOSED, Priority.URGENT, 5⟩]).byPriority Priority.ROUTINE +
     (getQueueStats [(⟨CaseStatus.DRAFT, Priority.ROUTINE, 0⟩ : QCase),
        ⟨CaseStatus.CLOSED, Priority.URGENT, 5⟩]).byPriority Priority.ELEVATED +
     (getQueueStats [(⟨CaseStatus.DRAFT, Priority.ROUTINE, 0⟩ : QCase),
        ⟨CaseStatus.CLOSED, Priority.URGENT, 5⟩]).byPriority Priority.URGENT =
      (getQueueStats [(⟨CaseStatus.DRAFT, Priority.ROUTINE, 0⟩ : QCase),
        ⟨CaseStatus.CLOSED, Priority.URGENT, 5⟩]).total) :=
  getQueueStats_correct_upto_1000
    [⟨CaseStatus.DRAFT, Priority.ROUTINE, 0⟩, ⟨CaseStatus.CLOSED, Priority.URGENT, 5⟩]
    (by decide)

end AyurVaidya
